import Mathlib

/-!
Shallow embedding of `src/scrape.js` (Metallindex price scraper).

Strings are modelled as `List Char`.  JavaScript numbers are modelled by
`JSNum`: either an exact rational (`JSNum.num`) or `JSNum.nan`; IEEE-754
rounding and overflow to `Infinity` (which only occur for prices with more
than ~308 digits) are not modelled, so the `Number.isFinite` guard of
`normalizeNumberString` is always satisfied in the model.  Fallible
JavaScript values (`null`/`undefined`) are modelled with `Option`.
-/

namespace Scrape

abbrev Str := List Char

def strL (s : String) : Str := s.data

/-- The JavaScript regex class `\s` (whitespace), as used by
`replace(/\s+/g, ' ')`, `trim()` and the `[.\s]` class of the numeric
pattern in `scrape.js`. -/
def isJsWs (c : Char) : Bool :=
  c = ' ' || c = '\t' || c = '\n' || c = '\r' ||
  c = Char.ofNat 0x0b || c = Char.ofNat 0x0c || c = Char.ofNat 0xa0 ||
  c = Char.ofNat 0x1680 || (0x2000 ≤ c.toNat && c.toNat ≤ 0x200a) ||
  c = Char.ofNat 0x2028 || c = Char.ofNat 0x2029 || c = Char.ofNat 0x202f ||
  c = Char.ofNat 0x205f || c = Char.ofNat 0x3000 || c = Char.ofNat 0xfeff

/-- JavaScript `String.prototype.trim`. -/
def jsTrim (s : Str) : Str :=
  ((s.dropWhile isJsWs).reverse.dropWhile isJsWs).reverse

/-- JavaScript `String.prototype.toLowerCase` (ASCII-faithful; the scraper
only compares against ASCII keywords). -/
def jsToLower (s : Str) : Str := s.map Char.toLower

/-- Auxiliary for `collapseWs`: the flag records whether the previous
character was whitespace (so a whitespace run yields a single space). -/
def collapseWsAux : Bool → Str → Str
  | _, [] => []
  | prevWs, c :: r =>
    if isJsWs c then
      if prevWs then collapseWsAux true r else ' ' :: collapseWsAux true r
    else c :: collapseWsAux false r

/-- JavaScript `s.replace(/\s+/g, ' ')`. -/
def collapseWs (s : Str) : Str := collapseWsAux false s

/-- Digit run to a natural number (the digits of the matched pattern). -/
def digitsToNat (ds : Str) : Nat := ds.foldl (fun n c => 10 * n + (c.toNat - 48)) 0

/-- Greedy matcher for `(?:[.\s]\d{3})*` (thousands groups): returns the
matched groups and the rest of the input.  The star is greedy and is never
backtracked, because everything that follows it in the pattern can match
the empty string. -/
def matchThousands : Str → Str × Str
  | c :: d1 :: d2 :: d3 :: rest =>
    if (c = '.' || isJsWs c) && d1.isDigit && d2.isDigit && d3.isDigit then
      match matchThousands rest with
      | (g, r) => (c :: d1 :: d2 :: d3 :: g, r)
    else ([], c :: d1 :: d2 :: d3 :: rest)
  | l => ([], l)

/-- Greedy matcher for `(?:[,.]\d+)?` (optional decimal tail). -/
def matchDecimal : Str → Str
  | c :: rest =>
    if (c = ',' || c = '.') && rest.takeWhile Char.isDigit ≠ [] then
      c :: rest.takeWhile Char.isDigit
    else []
  | [] => []

/-- Leftmost match of `/(\d{1,3}(?:[.\s]\d{3})*(?:[,.]\d+)?)/` — the
numeric pattern shared by `normalizeNumberString` and the in-page
`findNumberInText`.  The leftmost match starts at the first digit, takes
up to three leading digits greedily, then thousands groups, then the
optional decimal tail. -/
def matchNumber (s : Str) : Option Str :=
  let t := s.dropWhile (fun c => !c.isDigit)
  if t = [] then none
  else
    let lead := (t.takeWhile Char.isDigit).take 3
    let p := matchThousands (t.drop lead.length)
    some (lead ++ p.1 ++ matchDecimal p.2)

/-- JavaScript `num.replace(',', '.')` — only the first comma is replaced. -/
def replaceFirstComma : Str → Str
  | [] => []
  | c :: r => if c = ',' then '.' :: r else c :: replaceFirstComma r

/-- `parseFloat` on the cleaned-up match (digits, optionally a dot and
digits).  Returns `none` when no leading digits exist (parseFloat `NaN`). -/
def parseFloatClean (s : Str) : Option ℚ :=
  let ip := s.takeWhile Char.isDigit
  if ip = [] then none
  else
    match s.drop ip.length with
    | '.' :: r =>
      some ((digitsToNat ip : ℚ) +
        (digitsToNat (r.takeWhile Char.isDigit) : ℚ) / (10 : ℚ) ^ (r.takeWhile Char.isDigit).length)
    | _ => some ((digitsToNat ip : ℚ))

/-- `normalizeNumberString` from `scrape.js`:
remove U+202F, collapse whitespace, trim; find the first match of
`/(\d{1,3}(?:[.\s]\d{3})*(?:[,.]\d+)?)/`; strip whitespace and dots,
replace the comma by a dot; `parseFloat`.  `none` models both `null`
input (`!s` also rejects the empty string) and a failed match. -/
def normalizeNumberString : Option Str → Option ℚ
  | none => none
  | some s =>
    if s = [] then none
    else
      match matchNumber (jsTrim (collapseWs (s.filter (fun c => c ≠ Char.ofNat 0x202f)))) with
      | none => none
      | some m =>
        parseFloatClean (replaceFirstComma ((m.filter (fun c => !isJsWs c)).filter (fun c => c ≠ '.')))

/-- Substring test `p.leadsWith s`: does `s` begin with `p`?  Auxiliary for
`hasSub` (JavaScript `String.prototype.includes`). -/
def leadsWith : Str → Str → Bool
  | [], _ => true
  | _ :: _, [] => false
  | p :: ps, c :: s => p = c && leadsWith ps s

/-- JavaScript `s.includes(sub)` / `s.indexOf(sub) !== -1`. -/
def hasSub (sub : Str) : Str → Bool
  | [] => decide (sub = [])
  | c :: r => leadsWith sub (c :: r) || hasSub sub r

/-- JSON values, the result of `JSON.parse` on a `ld+json` script.
`jobj` keeps the key/value pairs in order; duplicate keys are resolved by
`assocLast` (JSON.parse keeps the last one). -/
inductive Json where
  | jnull
  | jbool (b : Bool)
  | jnum (q : ℚ)
  | jstr (s : Str)
  | jarr (items : List Json)
  | jobj (fields : List (Str × Json))

/-- JavaScript numbers: an exact rational or NaN (see the file comment). -/
inductive JSNum where
  | num (q : ℚ)
  | nan
deriving DecidableEq

/-- JavaScript truthiness of a JSON value. -/
def Json.truthy : Json → Bool
  | .jnull => false
  | .jbool b => b
  | .jnum q => decide (q ≠ 0)
  | .jstr s => decide (s ≠ [])
  | .jarr _ => true
  | .jobj _ => true

/-- Truthiness of a possibly-`undefined` value. -/
def otruthy : Option Json → Bool
  | none => false
  | some j => j.truthy

/-- Last binding of a key in an object (JSON.parse duplicate-key rule). -/
def assocLast : List (Str × Json) → Str → Option Json
  | [], _ => none
  | (k', v) :: r, k =>
    match assocLast r k with
    | some w => some w
    | none => if k' = k then some v else none

/-- Property access `j[k]`: `undefined` (`none`) on non-objects. -/
def Json.getF : Json → Str → Option Json
  | .jobj fs, k => assocLast fs k
  | _, _ => none

/-- Property access on a possibly-`undefined` base (only ever evaluated
behind a truthiness guard in the source, so `none` for `undefined` base is
faithful). -/
def ofield (o : Option Json) (k : Str) : Option Json := o.bind (fun j => j.getF k)

/-- JavaScript `a || b` on values. -/
def jsOr (a b : Option Json) : Option Json := if otruthy a then a else b

/-- JavaScript `a && b` on values. -/
def jsAnd (a b : Option Json) : Option Json := if otruthy a then b else a

/-- Decimal numeric literal (`digits`, `digits.digits`, `.digits`), the
grammar relevant to `Number(string)` for structured-data prices; exponents
and hex literals are not modelled. -/
def parseDecLit (t : Str) : Option ℚ :=
  let ip := t.takeWhile Char.isDigit
  match t.drop ip.length with
  | [] => if ip = [] then none else some ((digitsToNat ip : ℚ))
  | '.' :: r =>
    let fr := r.takeWhile Char.isDigit
    if r.drop fr.length ≠ [] then none
    else if ip = [] ∧ fr = [] then none
    else some ((digitsToNat ip : ℚ) + (digitsToNat fr : ℚ) / (10 : ℚ) ^ fr.length)
  | _ => none

/-- Optional sign in front of a decimal literal. -/
def parseSigned : Str → Option ℚ
  | '+' :: r => parseDecLit r
  | '-' :: r => (parseDecLit r).map (fun q => -q)
  | r => parseDecLit r

/-- `Number(string)`: trim, empty string is `0`, otherwise a full decimal
literal or `NaN`. -/
def jsStrNum (s : Str) : JSNum :=
  let t := jsTrim s
  if t = [] then .num 0
  else
    match parseSigned t with
    | some q => .num q
    | none => .nan

/-- `Number(value)` coercion as used by `tryJSONLD` on the extracted price
(scalar cases; a one-element array coerces through its element, other
arrays and objects give `NaN`, which slightly over-approximates the
`toString` round-trip JavaScript performs for arrays of non-scalars). -/
def jsNumber : Json → JSNum
  | .jnum q => .num q
  | .jstr s => jsStrNum s
  | .jbool b => .num (if b then 1 else 0)
  | .jnull => .num 0
  | .jarr [] => .num 0
  | .jarr [.jnum q] => .num q
  | .jarr [.jstr s] => jsStrNum s
  | .jarr _ => .nan
  | .jobj _ => .nan

def keyOffers : Str := strL "offers"
def keyPrice : Str := strL "price"
def keyPriceSpec : Str := strL "priceSpecification"

/-- `Array.isArray(item.offers) ? item.offers[0] : item.offers`. -/
def firstOffer : Json → Option Json
  | .jarr l => l.head?
  | j => some j

/-- The `offer` taken from an item (undefined when `offers` is absent —
only inspected behind the `item && item.offers` guard in the source). -/
def itemOffer (item : Json) : Option Json :=
  match item.getF keyOffers with
  | some o => firstOffer o
  | none => none

/-- `offer.price || (offer.priceSpecification && offer.priceSpecification.price)`. -/
def selPrice (offer : Option Json) : Option Json :=
  jsOr (ofield offer keyPrice)
    (jsAnd (ofield offer keyPriceSpec) (ofield (ofield offer keyPriceSpec) keyPrice))

/-- The body of `tryJSONLD`'s inner loop for one parsed item:
`if (item && item.offers) { const offer = ...; if (offer && (offer.price ||
offer.priceSpecification)) { const price = ...; if (price) return Number(price); } }`. -/
def offerPrice (item : Json) : Option JSNum :=
  if item.truthy && otruthy (item.getF keyOffers) then
    if otruthy (itemOffer item) &&
        otruthy (jsOr (ofield (itemOffer item) keyPrice) (ofield (itemOffer item) keyPriceSpec)) then
      match selPrice (itemOffer item) with
      | some p => if p.truthy then some (jsNumber p) else none
      | none => none
    else none
  else none

/-- `Array.isArray(parsed) ? parsed : [parsed]`. -/
def jsonItems : Json → List Json
  | .jarr l => l
  | j => [j]

/-- `tryJSONLD`: scripts are given as their `JSON.parse` results (`none`
for a parse error, which the source silently skips); the first price found
in document order wins. -/
def tryJSONLD (scripts : List (Option Json)) : Option JSNum :=
  scripts.findSome? (fun oj =>
    match oj with
    | none => none
    | some j => (jsonItems j).findSome? offerPrice)

/-- One `<meta>` tag: `name` models `getAttribute("name") || getAttribute("property")`,
`content` models `getAttribute("content")` (`none` when the attribute is absent). -/
structure MetaTag where
  name : Option Str
  content : Option Str

def metaKeys : List Str := [strL "price", strL "og:price", strL "product:price:amount"]

/-- `tryMeta`: skip tags with falsy name or content; when the lowercased
name contains `price`, `og:price` or `product:price:amount`, normalize the
content and return the first non-null result. -/
def tryMeta (metas : List MetaTag) : Option ℚ :=
  metas.findSome? (fun m =>
    match m.name, m.content with
    | some nm, some ct =>
      if nm = [] ∨ ct = [] then none
      else if metaKeys.any (fun k => hasSub k (jsToLower nm)) then
        normalizeNumberString (some ct)
      else none
    | _, _ => none)

def KEYWORDS : List Str :=
  [strL "ankauf", strL "ankaufspreis", strL "ankaufs", strL "kaufpreis", strL "ankaufswert"]

/-- In-page `findNumberInText`: first match of the numeric pattern, raw. -/
def findNumberInText (t : Str) : Option Str := matchNumber t

/-- First pass of `tryHeuristic`'s page script: elements (their trimmed
`innerText`) whose lowercased text contains a keyword. -/
def heurPass1 (texts : List Str) : Option Str :=
  texts.findSome? (fun t0 =>
    if jsTrim t0 = [] then none
    else
      KEYWORDS.findSome? (fun kw =>
        if hasSub kw (jsToLower (jsTrim t0)) then findNumberInText (jsTrim t0) else none))

/-- Second pass: first element containing a euro sign and a number. -/
def heurPass2 (texts : List Str) : Option Str :=
  texts.findSome? (fun t0 =>
    if jsTrim t0 = [] then none
    else if (jsTrim t0).contains '€' then findNumberInText (jsTrim t0) else none)

/-- The raw string returned by the evaluated page script. -/
def heurFound (texts : List Str) : Option Str :=
  match heurPass1 texts with
  | some n => some n
  | none => heurPass2 texts

/-- `tryHeuristic`: the page yields a raw numeric substring (or null), and
the result is normalized outside the page. -/
def tryHeuristic (texts : List Str) : Option ℚ :=
  match heurFound texts with
  | none => none
  | some found => normalizeNumberString (some found)

/-- The rendered page, by the query contract the strategies consume:
`selectorText sel` is the `waitForSelector`+`$eval` trimmed-text outcome
(`none` for timeout or query failure), `ldScripts` the parse results of
the `application/ld+json` scripts in document order, `metas` the meta
tags, `bodyTexts` the `innerText` of all `body *` elements in document
order. -/
structure Page where
  selectorText : Str → Option Str
  ldScripts : List (Option Json)
  metas : List MetaTag
  bodyTexts : List Str

/-- `trySelector`: on success the element's trimmed text is normalized;
timeouts and query errors are `none`. -/
def trySelector (page : Page) (sel : Str) : Option ℚ :=
  match page.selectorText sel with
  | none => none
  | some txt => normalizeNumberString (some (jsTrim txt))

/-- One configured target (an entry of `coins.json`). -/
structure Coin where
  id : Str
  name : Str
  url : Str
  metal : Option Str := none
  fineInGrams : Option ℚ := none
  selector : Option Str := none

/-- One entry of the report's `items`. -/
structure ScrapeResult where
  id : Str
  name : Str
  url : Str
  metal : Option Str
  fineInGrams : Option ℚ
  price_eur : Option JSNum
  ok : Bool
  notes : List Str

/-- `coin.metal || null`. -/
def jsOrNullS : Option Str → Option Str
  | some s => if s = [] then none else some s
  | none => none

/-- `coin.fineInGrams || null`. -/
def jsOrNullQ : Option ℚ → Option ℚ
  | some q => if q = 0 then none else some q
  | none => none

/-- The `results.push({...})` record. -/
def mkResult (coin : Coin) (price : Option JSNum) (notes : List Str) : ScrapeResult :=
  { id := coin.id, name := coin.name, url := coin.url,
    metal := jsOrNullS coin.metal, fineInGrams := jsOrNullQ coin.fineInGrams,
    price_eur := price, ok := price.isSome, notes := notes }

/-- The note pushed when `page.goto` throws. -/
def navNotes : Option Str → List Str
  | none => []
  | some msg => [strL "page-load-failed: " ++ msg]

/-- Step 1 of the chain: the explicit selector, run only when
`coin.selector && coin.selector.trim()` is truthy; emits `selector` or
`selector-not-found`. -/
def stepSelector (page : Page) (coin : Coin) : Option ℚ × List Str :=
  match coin.selector with
  | none => (none, [])
  | some sel =>
    if jsTrim sel = [] then (none, [])
    else
      match trySelector page sel with
      | some v => (some v, [strL "selector"])
      | none => (none, [strL "selector-not-found"])

/-- Steps 2–4 of the chain, each guarded by `price === null`: JSON-LD,
meta tags, heuristic; only the winning strategy notes a tag, except the
final `not-found`. -/
def stepRest (page : Page) : Option JSNum × List Str :=
  match tryJSONLD page.ldScripts with
  | some v => (some v, [strL "json-ld"])
  | none =>
    match tryMeta page.metas with
    | some v => (some (.num v), [strL "meta"])
    | none =>
      match tryHeuristic page.bodyTexts with
      | some v => (some (.num v), [strL "heuristic"])
      | none => (none, [strL "not-found"])

/-- The per-coin body of the main loop: navigation note, strategy chain,
result assembly (the pacing delay has no observable effect on the result). -/
def processCoin (nav : Option Str) (page : Page) (coin : Coin) : ScrapeResult :=
  match stepSelector page coin with
  | (some v, ns) => mkResult coin (some (.num v)) (navNotes nav ++ ns)
  | (none, ns) =>
    match stepRest page with
    | (p, ns2) => mkResult coin p (navNotes nav ++ ns ++ ns2)

/-- The main loop over `coins`: the environment assigns to each coin the
navigation outcome (`some msg` when `page.goto` threw with message `msg`)
and the page state the strategies then see. -/
def runBatch (coins : List Coin) (env : Coin → Option Str × Page) : List ScrapeResult :=
  coins.map (fun c => processCoin (env c).1 (env c).2 c)

/-- The final report object. -/
structure Report where
  source : Str
  generated_at : Str
  items : List ScrapeResult

def mkReport (gen : Str) (items : List ScrapeResult) : Report :=
  { source := strL "philoro.at", generated_at := gen, items := items }

/-- Did the selector strategy win (configured, matched and normalized)? -/
def selWon (page : Page) (coin : Coin) : Bool := (stepSelector page coin).1.isSome

/-- The audit-trail shape the code actually produces, written as a
function of the four strategy outcomes: a navigation-failure note first;
one tag for the selector attempt whenever a selector is configured; then
a tag only for the winning fallback strategy, or `not-found` when the
chain exhausts.  Failed JSON-LD and meta attempts leave no tag. -/
def expectedNotes (nav : Option Str) (page : Page) (coin : Coin) : List Str :=
  navNotes nav ++
  (match coin.selector with
   | none => []
   | some sel =>
     if jsTrim sel = [] then []
     else if (trySelector page sel).isSome then [strL "selector"]
     else [strL "selector-not-found"]) ++
  (if selWon page coin then []
   else if (tryJSONLD page.ldScripts).isSome then [strL "json-ld"]
   else if (tryMeta page.metas).isSome then [strL "meta"]
   else if (tryHeuristic page.bodyTexts).isSome then [strL "heuristic"]
   else [strL "not-found"])

/-! Concrete pages and coins used as test inputs by the theorems below. -/

def coinPlain : Coin := { id := strL "c", name := strL "n", url := strL "u" }

def pageC1 : Page :=
  { selectorText := fun _ => none,
    ldScripts := [some (Json.jobj [])],
    metas := [⟨some (strL "product:price:amount"), some (strL "12,34")⟩],
    bodyTexts := [] }

def pageC2 : Page :=
  { selectorText := fun _ => none,
    ldScripts := [some (Json.jobj [(keyOffers, Json.jobj [(keyPrice, Json.jstr (strL "abc"))])])],
    metas := [],
    bodyTexts := [] }

def pageC3 : Page :=
  { selectorText := fun _ => none, ldScripts := [], metas := [], bodyTexts := [] }

def coinC5 : Coin :=
  { id := strL "c5", name := strL "n5", url := strL "u5", selector := some (strL "#p") }

def pageC5 : Page :=
  { selectorText := fun s => if s = strL "#p" then some (strL "42 €") else none,
    ldScripts := [some (Json.jobj [(keyOffers, Json.jobj [(keyPrice, Json.jnum 999)])])],
    metas := [],
    bodyTexts := [] }

def pageC6 : Page :=
  { selectorText := fun _ => none,
    ldScripts := [],
    metas := [],
    bodyTexts := [strL "Ankaufspreis: 1.050,00 €"] }

def coinC7 : Coin :=
  { id := strL "c7", name := strL "n7", url := strL "u7", selector := some (strL "#x") }

def pageC7 : Page :=
  { selectorText := fun _ => none,
    ldScripts := [none, some Json.jnull],
    metas := [⟨some (strL "description"), some (strL "a page")⟩],
    bodyTexts := [strL "hello world"] }

def jZero : Json := Json.jobj [(keyOffers, Json.jobj [(keyPrice, Json.jnum 0)])]

/-! Helper lemmas. -/

theorem findSome?_middle_none {α β : Type _} {f : α → Option β} {l₁ l₂ : List α} {x : α}
    (h : f x = none) : (l₁ ++ x :: l₂).findSome? f = (l₁ ++ l₂).findSome? f := by
  induction l₁ with
  | nil => simp [List.findSome?_cons, h]
  | cons a t ih => rw [List.cons_append, List.cons_append, List.findSome?_cons,
      List.findSome?_cons, ih]

theorem findSome?_append_cons {α β : Type _} {f : α → Option β} {l₁ l₂ : List α} {x : α} {b : β}
    (h1 : l₁.findSome? f = none) (h2 : f x = some b) :
    (l₁ ++ x :: l₂).findSome? f = some b := by
  induction l₁ with
  | nil => rw [List.nil_append, List.findSome?_cons, h2]
  | cons a t ih =>
    rw [List.findSome?_cons] at h1
    rw [List.cons_append, List.findSome?_cons]
    cases ha : f a with
    | some w => rw [ha] at h1; simp at h1
    | none => rw [ha] at h1; simpa [ha] using ih h1

theorem processCoin_eq (nav : Option Str) (page : Page) (coin : Coin) :
    processCoin nav page coin =
      mkResult coin
        (match (stepSelector page coin).1 with
         | some v => some (JSNum.num v)
         | none => (stepRest page).1)
        (navNotes nav ++ (stepSelector page coin).2 ++
          match (stepSelector page coin).1 with
          | some _ => []
          | none => (stepRest page).2) := by
  unfold processCoin
  rcases hs : stepSelector page coin with ⟨p, ns⟩
  rcases hr : stepRest page with ⟨p2, ns2⟩
  cases p <;> simp [hs, hr]

theorem selNotes_eq (page : Page) (coin : Coin) :
    (stepSelector page coin).2 =
      (match coin.selector with
       | none => []
       | some sel =>
         if jsTrim sel = [] then []
         else if (trySelector page sel).isSome then [strL "selector"]
         else [strL "selector-not-found"]) := by
  unfold stepSelector
  cases coin.selector with
  | none => rfl
  | some sel =>
    by_cases ht : jsTrim sel = [] <;> cases hv : trySelector page sel <;> simp [ht, hv]

theorem restNotes_eq (page : Page) :
    (stepRest page).2 =
      (if (tryJSONLD page.ldScripts).isSome then [strL "json-ld"]
       else if (tryMeta page.metas).isSome then [strL "meta"]
       else if (tryHeuristic page.bodyTexts).isSome then [strL "heuristic"]
       else [strL "not-found"]) := by
  unfold stepRest
  cases hj : tryJSONLD page.ldScripts <;> cases hm : tryMeta page.metas <;>
    cases hh : tryHeuristic page.bodyTexts <;> simp

theorem notes_shape (nav : Option Str) (page : Page) (coin : Coin) :
    (processCoin nav page coin).notes =
      navNotes nav ++ (stepSelector page coin).2 ++
        (if selWon page coin then [] else (stepRest page).2) := by
  rw [processCoin_eq]
  unfold selWon mkResult
  cases h : (stepSelector page coin).1 <;> simp [h]

/-! Claim theorems. -/

/-- C1 (amended): the notes of a result are exactly, in attempt order, the
navigation-failure note (when navigation failed), one outcome tag for the
selector attempt whenever a selector is configured (`selector` or
`selector-not-found`), and then a single tag for the winning fallback
strategy (`json-ld`, `meta`, `heuristic`) or `not-found` when the whole
chain fails.  Failed Structured-Data and Metadata attempts record no tag
(which refutes the claim as stated, see the counterexample). -/
theorem notes_audit_trail (nav : Option Str) (page : Page) (coin : Coin) :
    (processCoin nav page coin).notes = expectedNotes nav page coin := by
  rw [notes_shape, selNotes_eq]
  unfold expectedNotes
  rw [restNotes_eq]

/-- C1 counterexample: a page whose only `ld+json` script parses to an
object without a price (`tryJSONLD` is attempted — no selector is
configured and the price is still null — and fails), and whose meta tag
then wins: the notes are exactly `["meta"]`, with no outcome tag for the
failed Structured-Data attempt before (or anywhere). -/
theorem notes_missing_jsonld_tag_cex :
    tryJSONLD pageC1.ldScripts = none ∧
    (processCoin none pageC1 coinPlain).notes = [strL "meta"] := ⟨rfl, rfl⟩

/-- C3 (confirmed): every ScrapeResult constructed by the batch satisfies
`ok == (price != null)` — the code sets `ok: price !== null` verbatim. -/
theorem ok_iff_price (coins : List Coin) (env : Coin → Option Str × Page)
    (r : ScrapeResult) (h : r ∈ runBatch coins env) :
    r.ok = r.price_eur.isSome := by
  unfold runBatch at h
  obtain ⟨c, -, rfl⟩ := List.mem_map.mp h
  rw [processCoin_eq]
  rfl

/-- C3 witness: the invariant applied to a concrete one-target batch. -/
theorem ok_iff_price_witness :
    (processCoin none pageC3 coinPlain).ok = (processCoin none pageC3 coinPlain).price_eur.isSome :=
  ok_iff_price [coinPlain] (fun _ => (none, pageC3)) _ (by simp [runBatch])

/-- C8 (confirmed): the report has exactly one result per target in input
order (`items[i]` is the processed `coins[i]`, so no navigation failure
aborts the batch or skips later targets), and a navigation failure puts a
note `page-load-failed: <detail>` first on that target's own result. -/
theorem batch_preserves_targets (coins : List Coin) (env : Coin → Option Str × Page) (gen : Str) :
    (mkReport gen (runBatch coins env)).items.length = coins.length ∧
    (∀ i : Nat, (mkReport gen (runBatch coins env)).items[i]? =
      (coins[i]?).map (fun c => processCoin (env c).1 (env c).2 c)) ∧
    (∀ msg page c, (processCoin (some msg) page c).notes.head? =
      some (strL "page-load-failed: " ++ msg)) := by
  refine ⟨by simp [mkReport, runBatch], fun i => ?_, fun msg page c => ?_⟩
  · simp [mkReport, runBatch, List.getElem?_map]
  · rw [notes_shape]
    simp [navNotes]

/-- C5 (confirmed): when a selector is configured (non-blank), its element
is found and its text normalizes to a non-null value, that value is the
final price, and the notes are exactly `["selector"]` — the page's
structured data, metadata and body are arbitrary here, so no later
strategy can contribute even if it would succeed. -/
theorem selector_short_circuit (page : Page) (coin : Coin) (sel txt : Str) (v : ℚ)
    (hsel : coin.selector = some sel) (hne : jsTrim sel ≠ [])
    (htxt : page.selectorText sel = some txt)
    (hv : normalizeNumberString (some (jsTrim txt)) = some v) :
    (processCoin none page coin).price_eur = some (JSNum.num v) ∧
    (processCoin none page coin).ok = true ∧
    (processCoin none page coin).notes = [strL "selector"] := by
  have hts : trySelector page sel = some v := by
    unfold trySelector; rw [htxt]; exact hv
  have hstep : stepSelector page coin = (some v, [strL "selector"]) := by
    unfold stepSelector; rw [hsel]; simp [hne, hts]
  refine ⟨?_, ?_, ?_⟩ <;> rw [processCoin_eq] <;> simp [hstep, mkResult, navNotes]

/-- C5 witness: a target whose selector matches `42 €` wins with price 42
and notes `["selector"]`, although the page's structured data holds a
price (999) that the Structured-Data strategy would have found. -/
theorem selector_short_circuit_witness :
    (processCoin none pageC5 coinC5).price_eur = some (JSNum.num 42) ∧
    (processCoin none pageC5 coinC5).ok = true ∧
    (processCoin none pageC5 coinC5).notes = [strL "selector"] :=
  selector_short_circuit pageC5 coinC5 (strL "#p") (strL "42 €") 42 rfl (by decide) rfl rfl

/-- C7 (confirmed): when the configured selector (if any) fails and the
JSON-LD, meta and heuristic strategies all fail, the result has a null
price, `ok == false`, and the notes end with `not-found`. -/
theorem total_failure (nav : Option Str) (page : Page) (coin : Coin)
    (hsel : ∀ sel, coin.selector = some sel → jsTrim sel ≠ [] → trySelector page sel = none)
    (hj : tryJSONLD page.ldScripts = none)
    (hm : tryMeta page.metas = none)
    (hh : tryHeuristic page.bodyTexts = none) :
    (processCoin nav page coin).price_eur = none ∧
    (processCoin nav page coin).ok = false ∧
    (processCoin nav page coin).notes.getLast? = some (strL "not-found") := by
  have hstep1 : (stepSelector page coin).1 = none := by
    unfold stepSelector
    cases hs : coin.selector with
    | none => rfl
    | some sel =>
      by_cases ht : jsTrim sel = []
      · simp [ht]
      · simp [ht, hsel sel hs ht]
  have hrest : stepRest page = (none, [strL "not-found"]) := by
    unfold stepRest; rw [hj, hm, hh]
  refine ⟨?_, ?_, ?_⟩ <;> rw [processCoin_eq] <;>
    simp [hstep1, hrest, mkResult, List.getLast?_concat]

/-- C7 witness: a target with a configured but unmatched selector on a
page whose scripts, metas and body yield nothing. -/
theorem total_failure_witness :
    (processCoin none pageC7 coinC7).price_eur = none ∧
    (processCoin none pageC7 coinC7).ok = false ∧
    (processCoin none pageC7 coinC7).notes.getLast? = some (strL "not-found") :=
  total_failure none pageC7 coinC7
    (by
      intro sel hs hne
      rw [show coinC7.selector = some (strL "#x") from rfl] at hs
      injection hs with h
      subst h
      rfl)
    rfl rfl rfl

/-- C4 (confirmed): the five test equations of the Numeric Normalizer. -/
theorem normalizer_examples :
    normalizeNumberString (some (strL "1.234,56")) = some (1234.56 : ℚ) ∧
    normalizeNumberString (some (strL "1 234,56 €")) = some (1234.56 : ℚ) ∧
    normalizeNumberString (some (strL "kein Preis")) = none ∧
    normalizeNumberString none = none ∧
    normalizeNumberString (some (strL "99,99")) = some (99.99 : ℚ) := by
  refine ⟨?_, ?_, rfl, rfl, ?_⟩
  · have h : normalizeNumberString (some (strL "1.234,56")) =
        some (((1234 : ℕ) : ℚ) + ((56 : ℕ) : ℚ) / (10 : ℚ) ^ (2 : ℕ)) := rfl
    rw [h]; norm_num
  · have h : normalizeNumberString (some (strL "1 234,56 €")) =
        some (((1234 : ℕ) : ℚ) + ((56 : ℕ) : ℚ) / (10 : ℚ) ^ (2 : ℕ)) := rfl
    rw [h]; norm_num
  · have h : normalizeNumberString (some (strL "99,99")) =
        some (((99 : ℕ) : ℚ) + ((99 : ℕ) : ℚ) / (10 : ℚ) ^ (2 : ℕ)) := rfl
    rw [h]; norm_num

/-- C9 (amended): the normalizer does misparse the plain American-decimal
input `"1234.56"`, but not as 123456: the pattern's leading `\d{1,3}`
takes at most three digits and a four-digit run cannot continue as a
thousands group, so the match is just `"123"` and the result is 123. -/
theorem american_decimal_misparse :
    normalizeNumberString (some (strL "1234.56")) = some (123 : ℚ) := rfl

/-- C9 counterexample: the claimed value 123456 is not what the code
computes for `"1234.56"` (the code yields 123). -/
theorem american_decimal_cex :
    normalizeNumberString (some (strL "1234.56")) ≠ some (123456 : ℚ) := by decide

/-- C6 (amended wording of the fallback scenario, confirmed): with no
selector, no structured data, no matching metadata, and a body element
`"Ankaufspreis: 1.050,00 €"` that no earlier element beats on keywords,
the heuristic yields 1050, `ok` is true and the notes end with
`heuristic`. -/
theorem heuristic_fallback (nav : Option Str) (page : Page) (coin : Coin)
    (pre post : List Str)
    (hsel : coin.selector = none)
    (hld : page.ldScripts = [])
    (hm : tryMeta page.metas = none)
    (hbody : page.bodyTexts = pre ++ strL "Ankaufspreis: 1.050,00 €" :: post)
    (hpre : ∀ t ∈ pre, ∀ kw ∈ KEYWORDS, hasSub kw (jsToLower (jsTrim t)) = false) :
    (processCoin nav page coin).price_eur = some (JSNum.num 1050) ∧
    (processCoin nav page coin).ok = true ∧
    (processCoin nav page coin).notes.getLast? = some (strL "heuristic") := by
  have hnorm : normalizeNumberString (some (strL "1.050,00")) = some (1050 : ℚ) := by
    have h : normalizeNumberString (some (strL "1.050,00")) =
        some (((1050 : ℕ) : ℚ) + ((0 : ℕ) : ℚ) / (10 : ℚ) ^ (2 : ℕ)) := rfl
    rw [h]; norm_num
  have hpass1 : heurPass1 (pre ++ strL "Ankaufspreis: 1.050,00 €" :: post) =
      some (strL "1.050,00") := by
    unfold heurPass1
    refine findSome?_append_cons ?_ (by rfl)
    refine List.findSome?_eq_none_iff.mpr (fun t ht => ?_)
    by_cases h0 : jsTrim t = []
    · simp [h0]
    · simp only [h0, if_false]
      refine List.findSome?_eq_none_iff.mpr (fun kw hkw => ?_)
      simp [hpre t ht kw hkw]
  have hheur : tryHeuristic page.bodyTexts = some 1050 := by
    rw [hbody]
    unfold tryHeuristic heurFound
    rw [hpass1]
    exact hnorm
  have hstep1 : (stepSelector page coin).1 = none := by
    unfold stepSelector; rw [hsel]
  have hrest : stepRest page = (some (JSNum.num 1050), [strL "heuristic"]) := by
    unfold stepRest
    rw [hld, hm, hheur]
    rfl
  refine ⟨?_, ?_, ?_⟩ <;> rw [processCoin_eq] <;>
    simp [hstep1, hrest, mkResult, List.getLast?_concat]

/-- C6 witness: the single-element test page. -/
theorem heuristic_fallback_witness :
    (processCoin none pageC6 coinPlain).price_eur = some (JSNum.num 1050) ∧
    (processCoin none pageC6 coinPlain).ok = true ∧
    (processCoin none pageC6 coinPlain).notes.getLast? = some (strL "heuristic") :=
  heuristic_fallback none pageC6 coinPlain [] [] rfl rfl rfl rfl
    (by intro t ht; exact absurd ht (List.not_mem_nil t))

theorem stepSelector_price_norm (page : Page) (coin : Coin) (v : ℚ)
    (h : (stepSelector page coin).1 = some v) :
    ∃ t, normalizeNumberString (some t) = some v := by
  unfold stepSelector at h
  split at h
  · simp at h
  split at h
  · simp at h
  split at h
  case _ sel hne w hw =>
    simp at h
    subst h
    unfold trySelector at hw
    split at hw
    · simp at hw
    next txt htxt => exact ⟨jsTrim txt, hw⟩
  · simp at h

theorem tryMeta_norm (ms : List MetaTag) (v : ℚ) (h : tryMeta ms = some v) :
    ∃ t, normalizeNumberString (some t) = some v := by
  unfold tryMeta at h
  obtain ⟨m, hmem, hf⟩ := List.exists_of_findSome?_eq_some h
  rcases m with ⟨n, c⟩
  rcases n with - | nm
  · rcases c with - | ct <;> simp at hf
  · rcases c with - | ct
    · simp at hf
    · simp only at hf
      by_cases h1 : nm = [] ∨ ct = []
      · rw [if_pos h1] at hf; exact absurd hf (by simp)
      · rw [if_neg h1] at hf
        by_cases h2 : (metaKeys.any fun k => hasSub k (jsToLower nm)) = true
        · rw [if_pos h2] at hf; exact ⟨ct, hf⟩
        · rw [if_neg h2] at hf; exact absurd hf (by simp)

theorem tryHeuristic_norm (ts : List Str) (v : ℚ) (h : tryHeuristic ts = some v) :
    ∃ t, normalizeNumberString (some t) = some v := by
  unfold tryHeuristic at h
  cases hf : heurFound ts with
  | none => rw [hf] at h; exact absurd h (by simp)
  | some found => rw [hf] at h; exact ⟨found, h⟩

theorem stepRest_price (page : Page) (x : JSNum) (h : (stepRest page).1 = some x) :
    tryJSONLD page.ldScripts = some x ∨
    (∃ v, tryMeta page.metas = some v ∧ x = JSNum.num v) ∨
    (∃ v, tryHeuristic page.bodyTexts = some v ∧ x = JSNum.num v) := by
  unfold stepRest at h
  cases hj : tryJSONLD page.ldScripts with
  | some w => rw [hj] at h; simp at h; exact Or.inl (by rw [h])
  | none =>
    rw [hj] at h
    cases hm : tryMeta page.metas with
    | some w => rw [hm] at h; simp at h; exact Or.inr (Or.inl ⟨w, rfl, h.symm⟩)
    | none =>
      rw [hm] at h
      cases hh : tryHeuristic page.bodyTexts with
      | some w => rw [hh] at h; simp at h; exact Or.inr (Or.inr ⟨w, rfl, h.symm⟩)
      | none => rw [hh] at h; simp at h

/-- C2 (amended): a non-null price is either the Structured-Data
strategy's direct `Number(...)` coercion of the raw structured value
(which need not be finite: a truthy non-numeric string coerces to NaN —
see the counterexample), or the output of the Numeric Normalizer on some
extracted text, and the latter is a finite rational by construction
(`JSNum.num`). -/
theorem price_provenance (nav : Option Str) (page : Page) (coin : Coin) (x : JSNum)
    (h : (processCoin nav page coin).price_eur = some x) :
    tryJSONLD page.ldScripts = some x ∨
    ∃ q t, x = JSNum.num q ∧ normalizeNumberString (some t) = some q := by
  rw [processCoin_eq] at h
  simp only [mkResult] at h
  cases hs : (stepSelector page coin).1 with
  | some v =>
    rw [hs] at h
    simp at h
    obtain ⟨t, ht⟩ := stepSelector_price_norm page coin v hs
    exact Or.inr ⟨v, t, h.symm, ht⟩
  | none =>
    rw [hs] at h
    rcases stepRest_price page x h with hj | ⟨v, hm, hx⟩ | ⟨v, hh, hx⟩
    · exact Or.inl hj
    · obtain ⟨t, ht⟩ := tryMeta_norm page.metas v hm
      exact Or.inr ⟨v, t, hx, ht⟩
    · obtain ⟨t, ht⟩ := tryHeuristic_norm page.bodyTexts v hh
      exact Or.inr ⟨v, t, hx, ht⟩

/-- C2 witness: the provenance disjunction instantiated on a page whose
structured data wins. -/
theorem price_provenance_witness :
    tryJSONLD pageC2.ldScripts = some JSNum.nan ∨
    ∃ q t, JSNum.nan = JSNum.num q ∧ normalizeNumberString (some t) = some q :=
  price_provenance none pageC2 coinPlain JSNum.nan rfl

/-- C2 counterexample: a structured-data price that is the string
`"abc"` (truthy, non-numeric) yields `Number("abc") = NaN` as the final
price — non-null, not finite, and not a normalizer output — with
`ok == true`. -/
theorem price_nan_cex :
    (processCoin none pageC2 coinPlain).price_eur = some JSNum.nan ∧
    (processCoin none pageC2 coinPlain).ok = true := ⟨rfl, rfl⟩

theorem offerPrice_zero (item : Json)
    (hp : ofield (itemOffer item) keyPrice = none ∨
          ofield (itemOffer item) keyPrice = some (Json.jnum 0))
    (hsp : ofield (ofield (itemOffer item) keyPriceSpec) keyPrice = none ∨
           ofield (ofield (itemOffer item) keyPriceSpec) keyPrice = some (Json.jnum 0)) :
    offerPrice item = none := by
  have hP : otruthy (ofield (itemOffer item) keyPrice) = false := by
    rcases hp with h | h <;> rw [h] <;> simp [otruthy, Json.truthy]
  have hOr : jsOr (ofield (itemOffer item) keyPrice) (ofield (itemOffer item) keyPriceSpec) =
      ofield (itemOffer item) keyPriceSpec := by
    unfold jsOr; rw [hP]; simp
  have hSel : selPrice (itemOffer item) =
      jsAnd (ofield (itemOffer item) keyPriceSpec)
        (ofield (ofield (itemOffer item) keyPriceSpec) keyPrice) := by
    unfold selPrice jsOr; rw [hP]; simp
  unfold offerPrice
  cases hb1 : (item.truthy && otruthy (item.getF keyOffers)) with
  | false => simp
  | true =>
    simp only [if_true]
    rw [hOr, hSel]
    cases hS : otruthy (ofield (itemOffer item) keyPriceSpec) with
    | false => simp [hS]
    | true =>
      have hAnd : jsAnd (ofield (itemOffer item) keyPriceSpec)
          (ofield (ofield (itemOffer item) keyPriceSpec) keyPrice) =
          ofield (ofield (itemOffer item) keyPriceSpec) keyPrice := by
        unfold jsAnd; rw [hS]; simp
      rw [hAnd]
      rcases hsp with h | h <;> rw [h] <;> simp [Json.truthy]

/-- C10 (amended): when every item of a structured-data document carries
only the JSON number 0 as its offer's `price` and
`priceSpecification.price` candidates (or none at all), the truthiness
guards skip them all and `tryJSONLD` behaves exactly as if that document
were absent — in particular it returns NotFound when no other truthy
price exists.  The blanket reading "never returns Found(0)" is refuted by
the string-`"0"` counterexample. -/
theorem jsonld_zero_price_skipped (pre post : List (Option Json)) (j : Json)
    (hz : ∀ item ∈ jsonItems j,
      (ofield (itemOffer item) keyPrice = none ∨
       ofield (itemOffer item) keyPrice = some (Json.jnum 0)) ∧
      (ofield (ofield (itemOffer item) keyPriceSpec) keyPrice = none ∨
       ofield (ofield (itemOffer item) keyPriceSpec) keyPrice = some (Json.jnum 0))) :
    tryJSONLD (pre ++ some j :: post) = tryJSONLD (pre ++ post) := by
  unfold tryJSONLD
  refine findSome?_middle_none ?_
  show (jsonItems j).findSome? offerPrice = none
  exact List.findSome?_eq_none_iff.mpr
    (fun item hi => offerPrice_zero item (hz item hi).1 (hz item hi).2)

/-- C10 witness: a document whose single item has `offers.price` equal to
the JSON number 0 is skipped entirely, and the strategy returns NotFound. -/
theorem jsonld_zero_price_skipped_witness :
    tryJSONLD ([] ++ some jZero :: []) = tryJSONLD ([] ++ []) :=
  jsonld_zero_price_skipped [] [] jZero (by
    intro item hi
    obtain rfl := List.mem_singleton.mp hi
    exact ⟨Or.inr rfl, Or.inl rfl⟩)

/-- C10 counterexample: the strategy does return Found(0) when the
offer's price is the non-empty string `"0"`, which is truthy and coerces
to the number 0. -/
theorem jsonld_string_zero_cex :
    tryJSONLD [some (Json.jobj [(keyOffers, Json.jobj [(keyPrice, Json.jstr (strL "0"))])])] =
      some (JSNum.num 0) := rfl

end Scrape
